import Mathlib

/-!
# Verification of the markitdown-node core against its specification

Shallow embedding of the format-detection, dispatch, document-model,
archive-expansion and Markdown-serialization subsystem of the
markitdown-node repository (`src/converter.ts`, `src/types.ts`,
`src/exporters/markdown.ts`, `src/backends/{base,plaintext,pdf}.ts`
and the XLSX backend).

Conventions of the embedding:
* JavaScript strings are modelled as `List Char` where character-level
  algorithms (detection, CSV splitting) are involved, and as Lean
  `String` for the rendered/aggregated values (cell texts, messages,
  Markdown output).
* Node `Buffer`s are modelled as `List Nat` (byte values).
  `buffer.toString('utf-8')` in the detector is only ever used for
  ASCII-substring and ASCII-prefix tests, for which a byte-wise decode
  (ASCII bytes to their characters, bytes >= 0x80 to U+FFFD) is
  extensionally equivalent to a real UTF-8 decode: multi-byte UTF-8
  sequences never decode to ASCII characters, and invalid sequences
  decode to U+FFFD.
* Asynchronous functions that can reject are modelled in
  `Except String`; the message of a thrown `Error` is the `String`.
* File-system reads are modelled by a `Source.path` constructor that
  carries the bytes the read returns.
-/

/-! ## JavaScript-semantics helpers -/

/-- JavaScript `x || d` for an optional string `x` (the empty string is
falsy, so it is replaced by the default). -/
def jsOrString (x : Option String) (d : String) : String :=
  match x with
  | some s => if s = "" then d else s
  | none => d

/-- JavaScript `x || d` for an optional number `x` (the number 0 is
falsy, so it is replaced by the default). -/
def jsOrNat (x : Option Nat) (d : Nat) : Nat :=
  match x with
  | some n => if n = 0 then d else n
  | none => d

/-- JavaScript `Math.abs (a - b)` for natural `a`, `b`. -/
def absDiff (a b : Nat) : Nat :=
  if a ≤ b then b - a else a - b

/-- JavaScript `String.prototype.repeat`: `n` copies of `s` concatenated. -/
def strRepeat (s : String) : Nat → String
  | 0 => ""
  | n + 1 => s ++ strRepeat s n

/-- JavaScript `Array.prototype.join` with separator `sep`. -/
def joinSep (sep : String) : List String → String
  | [] => ""
  | [x] => x
  | x :: y :: rest => x ++ sep ++ joinSep sep (y :: rest)

/-- Whitespace characters removed by JavaScript `String.prototype.trim`
(the core set: space, tab, newline, carriage return, form feed,
vertical tab, no-break space). -/
def jsIsSpace (c : Char) : Bool :=
  c = ' ' ∨ c = '\t' ∨ c = '\n' ∨ c = '\r' ∨ c = '\x0b' ∨ c = '\x0c' ∨ c = ' '

/-- JavaScript `String.prototype.trim` on a character list. -/
def trimChars (s : List Char) : List Char :=
  ((s.dropWhile jsIsSpace).reverse.dropWhile jsIsSpace).reverse

/-- `s.startsWith p` on character lists. -/
def listStartsWith : List Char → List Char → Bool
  | _, [] => true
  | [], _ :: _ => false
  | c :: cs, p :: ps => c = p ∧ listStartsWith cs ps

/-- `s.includes p` (substring containment) on character lists. -/
def listContainsStr (s p : List Char) : Bool :=
  match s with
  | [] => listStartsWith [] p
  | _ :: rest => listStartsWith s p ∨ listContainsStr rest p

/-- JavaScript `text.split('\n')`: split on newline characters only. -/
def splitNL : List Char → List (List Char)
  | [] => [[]]
  | '\n' :: rest => [] :: splitNL rest
  | c :: rest =>
    match splitNL rest with
    | [] => [[c]]
    | l :: ls => (c :: l) :: ls

/-- JavaScript `text.split(/\r?\n/)`: split on `\n` or `\r\n`. -/
def splitCRLF : List Char → List (List Char)
  | [] => [[]]
  | '\r' :: '\n' :: rest => [] :: splitCRLF rest
  | '\n' :: rest => [] :: splitCRLF rest
  | c :: rest =>
    match splitCRLF rest with
    | [] => [[c]]
    | l :: ls => (c :: l) :: ls

/-- `(line.match(/,/g) || []).length`: number of commas in a line. -/
def countCommas (l : List Char) : Nat :=
  l.countP (fun c => c = ',')

/-- `JSON.stringify` of a string value: quote and escape.  Only the
escapes that can occur in the metadata values of this development are
rendered specially; other characters pass through. -/
def jsonQuote (s : String) : String :=
  "\"" ++ String.mk (s.toList.flatMap (fun c =>
    if c = '"' then ['\\', '"']
    else if c = '\\' then ['\\', '\\']
    else if c = '\n' then ['\\', 'n']
    else if c = '\r' then ['\\', 'r']
    else if c = '\t' then ['\\', 't']
    else [c])) ++ "\""

/-! ## Byte buffers and decoding -/

/-- Decode one byte as `buffer.toString('utf-8')` would for the
ASCII-substring tests of the detector: ASCII bytes decode to their
character, any byte ≥ 0x80 is represented by U+FFFD.  (Multi-byte UTF-8
sequences never produce ASCII characters, so every ASCII prefix or
substring test gives the same answer as under a full UTF-8 decode.) -/
def decodeByte (b : Nat) : Char :=
  if b < 128 then Char.ofNat b else '�'

/-- `buffer.toString('utf-8')` over the whole buffer. -/
def decodeBytes (buf : List Nat) : List Char :=
  buf.map decodeByte

/-- `buffer.toString('utf-8', 0, n)`. -/
def decodeTake (buf : List Nat) (n : Nat) : List Char :=
  decodeBytes (buf.take n)

/-- Encode an ASCII string as the byte buffer holding it (used to build
concrete test buffers). -/
def asciiBytes (s : String) : List Nat :=
  s.toList.map Char.toNat

/-! ## Data model (`src/types.ts`) -/

/-- `export enum InputFormat` of `src/types.ts`. -/
inductive InputFormat where
  | pdf | docx | pptx | xlsx | html | vtt | srt | image | csv | json
  | text | xml | rss | atom | zip | youtube | bing_serp | ipynb
deriving DecidableEq, Repr

/-- The string value of each `InputFormat` enum member. -/
def formatToString : InputFormat → String
  | .pdf => "pdf" | .docx => "docx" | .pptx => "pptx" | .xlsx => "xlsx"
  | .html => "html" | .vtt => "vtt" | .srt => "srt" | .image => "image"
  | .csv => "csv" | .json => "json" | .text => "text" | .xml => "xml"
  | .rss => "rss" | .atom => "atom" | .zip => "zip" | .youtube => "youtube"
  | .bing_serp => "bing_serp" | .ipynb => "ipynb"

/-- `export enum DocumentItemType` of `src/types.ts`. -/
inductive DocumentItemType where
  | text | title | heading | paragraph | list | list_item | table
  | table_cell | image | code | formula | caption | section | subtitle
deriving DecidableEq, Repr

/-- `export enum ConversionStatus` of `src/types.ts`.  The third member
of the enum, `PARTIAL_SUCCESS`, is spelled `partialSuccess` here. -/
inductive ConversionStatus where
  | success | failure | partialSuccess
deriving DecidableEq, Repr

/-- `interface Formatting` (all fields optional booleans). -/
structure Formatting where
  bold : Option Bool := none
  italic : Option Bool := none
  underline : Option Bool := none
  strikethrough : Option Bool := none
deriving DecidableEq, Repr

/-- `interface TableCell`. -/
structure TableCell where
  text : String
  rowSpan : Option Nat := none
  colSpan : Option Nat := none
  isHeader : Option Bool := none
deriving DecidableEq, Repr

/-- The `metadata: Record<string, any>` of a `DocumentItem`, restricted
to the keys that the repository reads or writes (`ordered` by the list
renderer, `alt` and `src` by the image renderer, `language` and `page`
informational). -/
structure ItemMeta where
  ordered : Option Bool := none
  alt : Option String := none
  src : Option String := none
  language : Option String := none
  page : Option Nat := none
deriving DecidableEq, Repr

/-- `interface DocumentItem`, with `TableItem`'s extra fields (`rows`,
`numRows`, `numCols`) inlined as optional fields, as TypeScript's
structural subtyping allows them on any item. -/
inductive DocumentItem where
  | mk (type : DocumentItemType) (text : Option String) (level : Option Nat)
       (formatting : Option Formatting) (children : Option (List DocumentItem))
       (metadata : Option ItemMeta) (rows : Option (List (List TableCell)))
       (numRows : Option Nat) (numCols : Option Nat)

def DocumentItem.type : DocumentItem → DocumentItemType
  | .mk t _ _ _ _ _ _ _ _ => t

def DocumentItem.text : DocumentItem → Option String
  | .mk _ t _ _ _ _ _ _ _ => t

def DocumentItem.level : DocumentItem → Option Nat
  | .mk _ _ l _ _ _ _ _ _ => l

def DocumentItem.formatting : DocumentItem → Option Formatting
  | .mk _ _ _ f _ _ _ _ _ => f

def DocumentItem.children : DocumentItem → Option (List DocumentItem)
  | .mk _ _ _ _ c _ _ _ _ => c

def DocumentItem.metadata : DocumentItem → Option ItemMeta
  | .mk _ _ _ _ _ m _ _ _ => m

def DocumentItem.rows : DocumentItem → Option (List (List TableCell))
  | .mk _ _ _ _ _ _ r _ _ => r

def DocumentItem.numRows : DocumentItem → Option Nat
  | .mk _ _ _ _ _ _ _ nr _ => nr

def DocumentItem.numCols : DocumentItem → Option Nat
  | .mk _ _ _ _ _ _ _ _ nc => nc

/-- Object literal `{type, text}`. -/
def DocumentItem.textual (ty : DocumentItemType) (text : String) : DocumentItem :=
  .mk ty (some text) none none none none none none none

/-- Object literal `{type, text, level}`. -/
def DocumentItem.leveled (ty : DocumentItemType) (text : String) (level : Nat) :
    DocumentItem :=
  .mk ty (some text) (some level) none none none none none none

/-- Object literal `{type: TABLE, rows, numRows, numCols}`. -/
def DocumentItem.tableOf (rows : List (List TableCell)) (numRows numCols : Nat) :
    DocumentItem :=
  .mk .table none none none none none (some rows) (some numRows) (some numCols)

/-- Object literal `{type: CODE, text, metadata: {language}}`. -/
def DocumentItem.codeOf (text : String) (language : String) : DocumentItem :=
  .mk .code (some text) none none none (some { language := some language })
    none none none

/-- `interface DocumentMetadata`: the typed fields the repository's
backends write.  (`filename` and `format` are always present.) -/
structure DocumentMetadata where
  filename : String
  format : InputFormat
  title : Option String := none
  author : Option String := none
  pageCount : Option Nat := none
deriving Repr

/-- `interface Document`. -/
structure Document where
  metadata : DocumentMetadata
  content : List DocumentItem

/-- `interface ConversionResult`. -/
structure ConversionResult where
  status : ConversionStatus
  document : Option Document := none
  json_content : Option (List DocumentItem) := none
  markdown_content : Option String := none
  errors : Option (List String) := none
  warnings : Option (List String) := none

/-- A failure result `{status: FAILURE, errors: [...]}`. -/
def failureResult (errs : List String) : ConversionResult :=
  { status := .failure, errors := some errs }

/-- The `source: string | Buffer` argument of `convert`.  A `path`
source carries the bytes that `fs.promises.readFile` returns for it,
modelling the file system read. -/
inductive Source where
  | path (p : String) (contents : List Nat)
  | buffer (bytes : List Nat)

/-- The bytes of a source (`Buffer.isBuffer(source) ? source :
await fs.promises.readFile(source)`). -/
def Source.bytes : Source → List Nat
  | .path _ contents => contents
  | .buffer bytes => bytes

/-- The interface of `AbstractBackend` (`src/backends/base.ts`) as the
dispatcher consumes it: `isValid` and `convert` are async and may
reject, modelled in `Except String`. -/
structure Backend where
  isValid : Source → Except String Bool
  convert : Source → Option String → Except String Document

/-- The dispatcher state of `class MarkItDown`: the backend registry and
the allow-list, both fixed at construction. -/
structure MarkItDown where
  backendsMap : InputFormat → Option Backend
  allowedFormats : List InputFormat

/-! ## A JSON recognizer modelling `JSON.parse`

`MarkItDown.isValidJSON` and the notebook check call the JavaScript
builtin `JSON.parse`.  The recognizer below implements the JSON grammar
(RFC 8259) with a fuel argument for termination; the fuel passed by
`jsonParse` is generous enough that no input of interest exhausts it
(every three nested calls consume at least one character).  Numeric
values are not retained (`JsonVal.num`), since the converter only
inspects the top-level `cells` field. -/

inductive JsonVal where
  | null
  | bool (b : Bool)
  | num
  | str (s : List Char)
  | arr (elems : List JsonVal)
  | obj (fields : List (List Char × JsonVal))

/-- Insignificant whitespace of the JSON grammar. -/
def jsonWsChar (c : Char) : Bool :=
  c = ' ' ∨ c = '\t' ∨ c = '\n' ∨ c = '\r'

def skipWs (s : List Char) : List Char :=
  s.dropWhile jsonWsChar

def isHexDigitChar (c : Char) : Bool :=
  c.isDigit ∨ ('a' ≤ c ∧ c ≤ 'f') ∨ ('A' ≤ c ∧ c ≤ 'F')

/-- Parse a JSON string body after the opening quote; returns the
decoded content and the input after the closing quote.  A `\u` escape
is validated and replaced by `?` (no claim inspects non-ASCII keys). -/
def parseStringBody : Nat → List Char → Option (List Char × List Char)
  | 0, _ => none
  | _ + 1, [] => none
  | _ + 1, '"' :: rest => some ([], rest)
  | fuel + 1, '\\' :: rest =>
    (match rest with
     | [] => none
     | e :: rest2 =>
       let cont (c : Char) (r : List Char) :=
         (parseStringBody fuel r).map (fun br => (c :: br.1, br.2))
       if e = '"' then cont '"' rest2
       else if e = '\\' then cont '\\' rest2
       else if e = '/' then cont '/' rest2
       else if e = 'b' then cont '\x08' rest2
       else if e = 'f' then cont '\x0c' rest2
       else if e = 'n' then cont '\n' rest2
       else if e = 'r' then cont '\r' rest2
       else if e = 't' then cont '\t' rest2
       else if e = 'u' then
         match rest2 with
         | h1 :: h2 :: h3 :: h4 :: rest3 =>
           if isHexDigitChar h1 ∧ isHexDigitChar h2 ∧ isHexDigitChar h3 ∧
               isHexDigitChar h4 then cont '?' rest3 else none
         | _ => none
       else none)
  | fuel + 1, c :: rest =>
    if c.toNat < 0x20 then none
    else (parseStringBody fuel rest).map (fun br => (c :: br.1, br.2))

/-- The fractional part `('.' digits+)?` of a JSON number. -/
def parseFrac : List Char → Option (List Char)
  | '.' :: rest =>
    (match rest with
     | c :: r => if c.isDigit then some (r.dropWhile Char.isDigit) else none
     | [] => none)
  | s => some s

/-- The exponent part `([eE] [+-]? digits+)?` of a JSON number. -/
def parseExp (s : List Char) : Option (List Char) :=
  match s with
  | c :: rest =>
    if c = 'e' ∨ c = 'E' then
      let rest2 := match rest with
        | c2 :: r => if c2 = '+' ∨ c2 = '-' then r else rest
        | [] => rest
      match rest2 with
      | d :: r => if d.isDigit then some (r.dropWhile Char.isDigit) else none
      | [] => none
    else some s
  | [] => some s

/-- A complete JSON number; returns the rest of the input. -/
def parseNumber (s : List Char) : Option (List Char) :=
  let s1 := match s with
    | '-' :: r => r
    | _ => s
  match s1 with
  | '0' :: r =>
    (match r with
     | c :: _ => if c.isDigit then none else (parseFrac r).bind parseExp
     | [] => some [])
  | c :: r =>
    if c.isDigit then (parseFrac (r.dropWhile Char.isDigit)).bind parseExp
    else none
  | [] => none

mutual

def parseValue : Nat → List Char → Option (JsonVal × List Char)
  | 0, _ => none
  | fuel + 1, s =>
    match skipWs s with
    | [] => none
    | c :: rest =>
      if c = '"' then
        (parseStringBody (rest.length + 1) rest).map (fun br => (.str br.1, br.2))
      else if c = Char.ofNat 123 then parseObjBody fuel rest
      else if c = '[' then parseArrBody fuel rest
      else if listStartsWith (c :: rest) ("true".toList) then
        some (.bool true, (c :: rest).drop 4)
      else if listStartsWith (c :: rest) ("false".toList) then
        some (.bool false, (c :: rest).drop 5)
      else if listStartsWith (c :: rest) ("null".toList) then
        some (.null, (c :: rest).drop 4)
      else (parseNumber (c :: rest)).map (fun r => (.num, r))

/-- The input just after `[`. -/
def parseArrBody : Nat → List Char → Option (JsonVal × List Char)
  | 0, _ => none
  | fuel + 1, s =>
    match skipWs s with
    | c :: rest => if c = ']' then some (.arr [], rest) else parseArrItems fuel s []
    | [] => none

def parseArrItems : Nat → List Char → List JsonVal → Option (JsonVal × List Char)
  | 0, _, _ => none
  | fuel + 1, s, acc =>
    (parseValue fuel s).bind (fun vr =>
      match skipWs vr.2 with
      | c :: rest =>
        if c = ',' then parseArrItems fuel rest (vr.1 :: acc)
        else if c = ']' then some (.arr (vr.1 :: acc).reverse, rest)
        else none
      | [] => none)

/-- The input just after the opening brace. -/
def parseObjBody : Nat → List Char → Option (JsonVal × List Char)
  | 0, _ => none
  | fuel + 1, s =>
    match skipWs s with
    | c :: rest =>
      if c = Char.ofNat 125 then some (.obj [], rest) else parseObjItems fuel s []
    | [] => none

def parseObjItems :
    Nat → List Char → List (List Char × JsonVal) → Option (JsonVal × List Char)
  | 0, _, _ => none
  | fuel + 1, s, acc =>
    match skipWs s with
    | c :: rest =>
      if c = '"' then
        (parseStringBody (rest.length + 1) rest).bind (fun kr =>
          match skipWs kr.2 with
          | c2 :: rest2 =>
            if c2 = ':' then
              (parseValue fuel rest2).bind (fun vr =>
                match skipWs vr.2 with
                | c3 :: rest3 =>
                  if c3 = ',' then parseObjItems fuel rest3 ((kr.1, vr.1) :: acc)
                  else if c3 = Char.ofNat 125 then
                    some (.obj ((kr.1, vr.1) :: acc).reverse, rest3)
                  else none
                | [] => none)
            else none
          | [] => none)
      else none
    | [] => none

end

/-- `JSON.parse(text)`: parse one value and require only whitespace after. -/
def jsonParse (text : List Char) : Option JsonVal :=
  (parseValue (4 * text.length + 8) text).bind (fun vr =>
    if (skipWs vr.2).isEmpty then some vr.1 else none)

/-- `MarkItDown.isValidJSON` (`src/converter.ts`): `JSON.parse` succeeds. -/
def isValidJSON (text : List Char) : Bool :=
  (jsonParse text).isSome

/-- `jsonData && jsonData.cells && Array.isArray(jsonData.cells)`: the
parsed value is an object whose `cells` member (last occurrence wins,
as in JavaScript) is an array.  Only objects have a `cells` property,
and an array value is always truthy. -/
def jsonHasCellsArray : JsonVal → Bool
  | .obj fields =>
    (match fields.reverse.find? (fun kv => kv.1 = "cells".toList) with
     | some kv => match kv.2 with
       | .arr _ => true
       | _ => false
     | none => false)
  | _ => false

/-! ## Format detection (`src/converter.ts`) -/

/-- The basename part of a path (the text after the last `/`). -/
def afterLastSlash (s : List Char) : List Char :=
  s.foldl (fun acc c => if c = '/' then [] else acc ++ [c]) []

/-- Node's `path.extname`: the extension of the basename of `p`, from
the last dot to the end; the empty string when the basename has no dot
or only a leading dot. -/
def extname (p : List Char) : List Char :=
  let b := afterLastSlash p
  if b.contains '.' then
    let revTail := b.reverse.takeWhile (fun c => c ≠ '.')
    if b.length - revTail.length - 1 = 0 then [] else '.' :: revTail.reverse
  else []

/-- `path.extname(filename).toLowerCase().slice(1)`: the lower-cased
extension without its dot. -/
def extKey (p : String) : String :=
  String.mk (((extname p.toList).map Char.toLower).drop 1)

/-- `MarkItDown.extensionToFormat`: the fixed extension-to-format table. -/
def extensionToFormat (ext : String) : Option InputFormat :=
  if ext = "pdf" then some .pdf
  else if ext = "docx" then some .docx
  else if ext = "pptx" then some .pptx
  else if ext = "xlsx" then some .xlsx
  else if ext = "html" then some .html
  else if ext = "htm" then some .html
  else if ext = "vtt" then some .vtt
  else if ext = "srt" then some .srt
  else if ext = "png" then some .image
  else if ext = "jpg" then some .image
  else if ext = "jpeg" then some .image
  else if ext = "tiff" then some .image
  else if ext = "tif" then some .image
  else if ext = "csv" then some .csv
  else if ext = "json" then some .json
  else if ext = "txt" then some .text
  else if ext = "xml" then some .xml
  else if ext = "rss" then some .rss
  else if ext = "atom" then some .atom
  else if ext = "zip" then some .zip
  else if ext = "ipynb" then some .ipynb
  else none

/-- The ZIP local-file-header test `buffer[0] === 0x50 && buffer[1] ===
0x4b && buffer[2] === 0x03 && buffer[3] === 0x04`. -/
def pkSignature (buf : List Nat) : Bool :=
  buf[0]? = some 0x50 ∧ buf[1]? = some 0x4b ∧ buf[2]? = some 0x03 ∧ buf[3]? = some 0x04

/-- Whitespace of the JavaScript regex class `\s` (core set). -/
def jsRegexSpace (c : Char) : Bool :=
  c = ' ' ∨ c = '\t' ∨ c = '\n' ∨ c = '\r' ∨ c = '\x0b' ∨ c = '\x0c'

/-- `\d{2}:\d{2}` at the head of the input. -/
def srtTimePrefix : List Char → Bool
  | d1 :: d2 :: c :: d3 :: d4 :: _ =>
    d1.isDigit ∧ d2.isDigit ∧ c = ':' ∧ d3.isDigit ∧ d4.isDigit
  | _ => false

/-- `\s*\n\d{2}:\d{2}` at the head of the input (with the backtracking
of `\s*`: some run of whitespace ends at a newline followed by a
timestamp). -/
def srtAfterDigits : List Char → Bool
  | [] => false
  | c :: rest =>
    if c = '\n' ∧ srtTimePrefix rest then true
    else if jsRegexSpace c then srtAfterDigits rest
    else false

/-- The test `/^\d+\s*\n\d{2}:\d{2}/.test(header)` for SRT subtitles. -/
def srtHeadPattern (l : List Char) : Bool :=
  match l with
  | c :: _ => c.isDigit ∧ srtAfterDigits (l.dropWhile Char.isDigit)
  | [] => false

/-- `MarkItDown.looksLikeCSV` (`src/converter.ts` lines 253-263): take
the first five lines, drop the blank ones, and require at least two
remaining lines, a comma in the first, and every line's comma count
within one of the first line's. -/
def looksLikeCSV (text : List Char) : Bool :=
  let lines := ((splitNL text).take 5).filter (fun l => ¬(trimChars l).isEmpty)
  if lines.length < 2 then false
  else
    let commaCounts := lines.map countCommas
    let firstCount := commaCounts.headD 0
    0 < firstCount ∧ commaCounts.all (fun c => absDiff c firstCount ≤ 1)

/-- `MarkItDown.detectFormatFromContent` (`src/converter.ts` lines
176-242).  The `header` is the decode of the first 100 bytes, the
`fullContent` of the first `min(length, 10000)` bytes.  The XML guard
can fall through to the JSON and CSV checks when none of its inner
returns fire, which the `xmlStep` match models. -/
def detectFormatFromContent (buffer : List Nat) : Option InputFormat :=
  let header := decodeTake buffer 100
  let fullContent := decodeTake buffer (min buffer.length 10000)
  if listStartsWith header ("%PDF-".toList) then some .pdf
  else if pkSignature buffer then
    let content := decodeBytes buffer
    if listContainsStr content ("word/".toList) then some .docx
    else if listContainsStr content ("ppt/".toList) then some .pptx
    else if listContainsStr content ("xl/".toList) then some .xlsx
    else some .zip
  else if listContainsStr header ("<html".toList) ∨
      listContainsStr header ("<!DOCTYPE".toList) then
    if listContainsStr fullContent ("bing.com".toList) ∧
        (listContainsStr fullContent ("b_algo".toList) ∨
         listContainsStr fullContent ("b_searchboxSubmit".toList)) then
      some .bing_serp
    else some .html
  else if listStartsWith header ("WEBVTT".toList) then some .vtt
  else if srtHeadPattern header then some .srt
  else
    let xmlStep : Option InputFormat :=
      if listStartsWith (trimChars header) ("<?xml".toList) ∨
          listStartsWith (trimChars header) ("<".toList) then
        if listContainsStr header ("<rss".toList) then some .rss
        else if listContainsStr header ("<feed".toList) then some .atom
        else if listContainsStr header ("<".toList) then some .xml
        else none
      else none
    match xmlStep with
    | some f => some f
    | none =>
      let trimmed := trimChars header
      if (listStartsWith trimmed [Char.ofNat 123] ∨ listStartsWith trimmed ['[']) ∧
          isValidJSON (decodeBytes buffer) then
        match jsonParse (decodeBytes buffer) with
        | some v => if jsonHasCellsArray v then some .ipynb else some .json
        | none => some .json
      else if looksLikeCSV header then some .csv
      else none

/-- The second half of `MarkItDown.detectFormat`: the extension of a
path source, then content sniffing. -/
def detectFormatFromPathOrContent (source : Source) : Option InputFormat :=
  match source with
  | .path p _ =>
    (match extensionToFormat (extKey p) with
     | some fmt => some fmt
     | none => detectFormatFromContent source.bytes)
  | .buffer b => detectFormatFromContent b

/-- `MarkItDown.detectFormat` (`src/converter.ts` lines 128-147): the
filename's extension first, then the path's, then content sniffing. -/
def detectFormat (source : Source) (filename : Option String) : Option InputFormat :=
  match filename with
  | some f =>
    (match extensionToFormat (extKey f) with
     | some fmt => some fmt
     | none => detectFormatFromPathOrContent source)
  | none => detectFormatFromPathOrContent source

/-! ## Markdown exporter (`src/exporters/markdown.ts`) -/

inductive HeadingStyle where
  | atx | setext
deriving DecidableEq, Repr

inductive CodeBlockStyle where
  | fenced | indented
deriving DecidableEq, Repr

/-- `interface MarkdownExportOptions` (all fields optional). -/
structure MarkdownExportOptions where
  includeMetadata : Option Bool := none
  headingStyle : Option HeadingStyle := none
  bulletChar : Option String := none
  codeBlockStyle : Option CodeBlockStyle := none
  preserveFormatting : Option Bool := none
deriving DecidableEq, Repr

/-- The `Required<MarkdownExportOptions>` the constructor builds. -/
structure ResolvedMarkdownOptions where
  includeMetadata : Bool
  headingStyle : HeadingStyle
  bulletChar : String
  codeBlockStyle : CodeBlockStyle
  preserveFormatting : Bool
deriving DecidableEq, Repr

/-- The `MarkdownExporter` constructor: apply the documented defaults
(`includeMetadata` true, atx headings, `-` bullets, fenced code,
formatting preserved). -/
def resolveOptions (o : MarkdownExportOptions) : ResolvedMarkdownOptions :=
  { includeMetadata := o.includeMetadata.getD true
    headingStyle := o.headingStyle.getD .atx
    bulletChar := o.bulletChar.getD "-"
    codeBlockStyle := o.codeBlockStyle.getD .fenced
    preserveFormatting := o.preserveFormatting.getD true }

/-- `MarkdownExporter.exportHeading` (`src/exporters/markdown.ts` lines
100-116).  `item.level || 1` makes a missing or zero level 1. -/
def exportHeading (o : ResolvedMarkdownOptions) (item : DocumentItem) : String :=
  let level := jsOrNat item.level 1
  let text := jsOrString item.text ""
  match o.headingStyle with
  | .atx => strRepeat "#" level ++ " " ++ text
  | .setext =>
    if level = 1 then text ++ "\n" ++ strRepeat "=" text.length
    else if level = 2 then text ++ "\n" ++ strRepeat "-" text.length
    else strRepeat "#" level ++ " " ++ text

/-- `MarkdownExporter.exportTitle`. -/
def exportTitle (item : DocumentItem) : String :=
  "# " ++ jsOrString item.text ""

/-- Truthiness of an optional boolean formatting flag. -/
def fmtFlag (x : Option Bool) : Bool :=
  x.getD false

/-- `MarkdownExporter.exportText`: wrap in `**`, `*`, `~~` in that fixed
order when formatting is preserved and present; underline is dropped. -/
def exportText (o : ResolvedMarkdownOptions) (item : DocumentItem) : String :=
  let text := jsOrString item.text ""
  match o.preserveFormatting, item.formatting with
  | true, some f =>
    let t1 := if fmtFlag f.bold then "**" ++ text ++ "**" else text
    let t2 := if fmtFlag f.italic then "*" ++ t1 ++ "*" else t1
    if fmtFlag f.strikethrough then "~~" ++ t2 ++ "~~" else t2
  | _, _ => text

/-- `MarkdownExporter.exportListItem`. -/
def exportListItem (o : ResolvedMarkdownOptions) (item : DocumentItem)
    (level : Nat) : String :=
  strRepeat "  " level ++ o.bulletChar ++ " " ++ jsOrString item.text ""

/-- `MarkdownExporter.exportTable` (`src/exporters/markdown.ts` lines
165-186): the first row becomes the header, a `---` separator cell is
emitted per first-row column, the remaining rows are data.
(`cell.text || ''` is the identity on the string-typed `text` field.) -/
def exportTable (item : DocumentItem) : String :=
  let rows := item.rows.getD []
  match rows with
  | [] => ""
  | r0 :: rest =>
    let headerLine := "| " ++ joinSep " | " (r0.map (fun cell => cell.text)) ++ " |"
    let separator := "| " ++ joinSep " | " (r0.map (fun _ => "---")) ++ " |"
    let dataLines := rest.map
      (fun row => "| " ++ joinSep " | " (row.map (fun cell => cell.text)) ++ " |")
    joinSep "\n" (headerLine :: separator :: dataLines)

/-- `MarkdownExporter.exportCode`. -/
def exportCode (o : ResolvedMarkdownOptions) (item : DocumentItem) : String :=
  let code := jsOrString item.text ""
  match o.codeBlockStyle with
  | .fenced => "```\n" ++ code ++ "\n```"
  | .indented =>
    joinSep "\n" ((splitNL code.toList).map (fun l => "    " ++ String.mk l))

/-- `MarkdownExporter.exportFormula`. -/
def exportFormula (item : DocumentItem) : String :=
  "$$" ++ jsOrString item.text "" ++ "$$"

/-- `MarkdownExporter.exportImage`: `item.metadata?.alt || item.text ||
''` and `item.metadata?.src || ''`. -/
def exportImage (item : DocumentItem) : String :=
  let alt := jsOrString (item.metadata.bind (fun m => m.alt)) (jsOrString item.text "")
  let src := jsOrString (item.metadata.bind (fun m => m.src)) ""
  "![" ++ alt ++ "](" ++ src ++ ")"

mutual

/-- `MarkdownExporter.exportItem`: dispatch on the item kind.  The
default branch (`table_cell`, `caption`, `subtitle`) renders
`item.text || ''`. -/
def exportItem (o : ResolvedMarkdownOptions) : DocumentItem → Nat → String
  | item@(.mk ty _ _ _ children meta _ _ _), level =>
    match ty with
    | .heading => exportHeading o item
    | .title => exportTitle item
    | .paragraph => exportText o item
    | .text => exportText o item
    | .list =>
      let isOrdered := (meta.bind (fun m => m.ordered)).getD false
      (match children with
       | some cs => joinSep "\n" (exportListChildren o cs level 0 isOrdered)
       | none => joinSep "\n" (exportListChildren o [] level 0 isOrdered))
    | .list_item => exportListItem o item level
    | .table => exportTable item
    | .code => exportCode o item
    | .formula => exportFormula item
    | .image => exportImage item
    | .section =>
      (match children with
       | some cs => joinSep "\n\n" (exportSeq o cs level)
       | none => "")
    | _ => jsOrString item.text ""

/-- `items.map((item) => this.exportItem(item, level))`. -/
def exportSeq (o : ResolvedMarkdownOptions) : List DocumentItem → Nat → List String
  | [], _ => []
  | i :: is, level => exportItem o i level :: exportSeq o is level

/-- The body of `MarkdownExporter.exportList`: one line per child with
`bulletChar` or `{index+1}.` markers, indented two spaces per level;
a child with children recurses with `level + 1`. -/
def exportListChildren (o : ResolvedMarkdownOptions) :
    List DocumentItem → Nat → Nat → Bool → List String
  | [], _, _, _ => []
  | .mk _ ctext _ _ cchildren _ _ _ _ :: cs, level, idx, ordered =>
    let marker := if ordered then toString (idx + 1) ++ "." else o.bulletChar
    let indent := strRepeat "  " level
    let text := jsOrString ctext ""
    let base := indent ++ marker ++ " " ++ text
    let entry :=
      match cchildren with
      | some gcs =>
        if gcs.length > 0 then
          base ++ "\n" ++ joinSep "\n\n" (exportSeq o gcs (level + 1))
        else base
      | none => base
    entry :: exportListChildren o cs level (idx + 1) ordered

end

/-- `MarkdownExporter.exportContent`. -/
def exportContent (o : ResolvedMarkdownOptions) (items : List DocumentItem)
    (level : Nat) : String :=
  joinSep "\n\n" (exportSeq o items level)

/-- The `key: value` lines of the frontmatter, in the field order of the
metadata literals the backends construct (`Object.entries` preserves
insertion order); absent fields are skipped, values are JSON-encoded. -/
def metadataEntries (md : DocumentMetadata) : List String :=
  ["filename: " ++ jsonQuote md.filename, "format: " ++ jsonQuote (formatToString md.format)] ++
  (match md.title with | some t => ["title: " ++ jsonQuote t] | none => []) ++
  (match md.author with | some a => ["author: " ++ jsonQuote a] | none => []) ++
  (match md.pageCount with | some n => ["pageCount: " ++ toString n] | none => [])

/-- `MarkdownExporter.exportMetadata`. -/
def exportMetadata (md : DocumentMetadata) : String :=
  joinSep "\n" (["---"] ++ metadataEntries md ++ ["---"])

/-- The instance method `MarkdownExporter.export`: optional frontmatter,
then the content, with empty parts filtered out and the rest joined by
one blank line. -/
def exportDocument (o : ResolvedMarkdownOptions) (d : Document) : String :=
  let parts := (if o.includeMetadata then [exportMetadata d.metadata] else []) ++
    [exportContent o d.content 0]
  joinSep "\n\n" (parts.filter (fun s => s ≠ ""))

/-- The static `MarkdownExporter.export(document, options)`: construct
an exporter with the given options and export. -/
def MarkdownExporter.exportStatic (d : Document) (o : MarkdownExportOptions) : String :=
  exportDocument (resolveOptions o) d

/-! ## The dispatcher (`MarkItDown.convert`, `src/converter.ts` lines 69-123) -/

/-- The body of the `try` block of `MarkItDown.convert`: detection,
allow-list, registry lookup, validation, conversion, then the derived
outputs.  A rejected promise from `isValid` or `convert` propagates as
`Except.error`. -/
def MarkItDown.convertCore (m : MarkItDown) (source : Source)
    (filename : Option String) : Except String ConversionResult :=
  match detectFormat source filename with
  | none => .ok (failureResult ["Unable to detect document format"])
  | some format =>
    if m.allowedFormats.contains format then
      match m.backendsMap format with
      | none =>
        .ok (failureResult ["No backend available for format " ++ formatToString format])
      | some backend =>
        match backend.isValid source with
        | .error e => .error e
        | .ok valid =>
          if valid then
            match backend.convert source filename with
            | .error e => .error e
            | .ok document =>
              .ok { status := .success
                    document := some document
                    json_content := some document.content
                    markdown_content := some (MarkdownExporter.exportStatic document
                      { includeMetadata := some false }) }
          else .ok (failureResult ["Invalid " ++ formatToString format ++ " document"])
    else .ok (failureResult ["Format " ++ formatToString format ++ " is not allowed"])

/-- `MarkItDown.convert`: the surrounding `catch` turns any exception
into `{status: FAILURE, errors: [message]}`, so the result type is
total — no exception escapes. -/
def MarkItDown.convert (m : MarkItDown) (source : Source)
    (filename : Option String) : ConversionResult :=
  match m.convertCore source filename with
  | .ok r => r
  | .error msg => failureResult [msg]

/-! ## PlainText backend (`src/backends/plaintext.ts`) -/

/-- The quote-aware cell splitter inside `PlainTextBackend.parseCSV`
(lines 108-125): toggle `inQuotes` on `"`, split on unquoted commas,
trim each cell. -/
def parseCSVLineGo : List Char → List Char → Bool → List String
  | [], currentCell, _ => [String.mk (trimChars currentCell.reverse)]
  | c :: rest, currentCell, inQuotes =>
    if c = '"' then parseCSVLineGo rest currentCell (!inQuotes)
    else if c = ',' ∧ ¬inQuotes then
      String.mk (trimChars currentCell.reverse) :: parseCSVLineGo rest [] inQuotes
    else parseCSVLineGo rest (c :: currentCell) inQuotes

def parseCSVLine (line : List Char) : List String :=
  parseCSVLineGo line [] false

/-- `Math.max(...lengths)` for the non-empty list of row lengths (all
values are non-negative, so the 0 seed is neutral). -/
def jsMathMax (l : List Nat) : Nat :=
  l.foldl max 0

/-- `PlainTextBackend.parseCSV` (lines 101-154): split into non-blank
lines, parse cells, then build one table item whose rows are all padded
to `numCols = Math.max(...row lengths)` with `row[j] || ''` cells, the
first row's cells flagged as headers. -/
def PlainTextBackend.parseCSV (text : List Char) : List DocumentItem :=
  let lines := (splitCRLF text).filter (fun l => ¬(trimChars l).isEmpty)
  if lines.isEmpty then []
  else
    let rows := lines.map parseCSVLine
    if rows.isEmpty then []
    else
      let numCols := jsMathMax (rows.map List.length)
      let tableRows := rows.enum.map (fun ri =>
        (List.range numCols).map (fun j =>
          ({ text := ri.2.getD j "", isHeader := some (ri.1 = 0) } : TableCell)))
      [DocumentItem.tableOf tableRows tableRows.length numCols]

/-- `PlainTextBackend.parsePlainText` (lines 81-99): split on runs of
blank lines into paragraphs; a blank-free text becomes one paragraph. -/
def splitParagraphs : List Char → List (List Char)
  | [] => [[]]
  | '\n' :: '\n' :: rest => [] :: splitParagraphs (rest.dropWhile (fun c => c = '\n'))
  | c :: rest =>
    match splitParagraphs rest with
    | [] => [[c]]
    | l :: ls => (c :: l) :: ls
termination_by l => l.length
decreasing_by
  · have := (List.dropWhile_sublist (l := rest) (fun c => decide (c = '\n'))).length_le
    simp at *
    omega
  · simp

def PlainTextBackend.parsePlainText (text : List Char) : List DocumentItem :=
  let paragraphs := (splitParagraphs text).filter (fun p => ¬(trimChars p).isEmpty)
  let content := paragraphs.map (fun p =>
    DocumentItem.textual .paragraph (String.mk (trimChars p)))
  if content.isEmpty ∧ ¬(trimChars text).isEmpty then
    [DocumentItem.textual .paragraph (String.mk (trimChars text))]
  else content

/-! ## XLSX backend table construction (`XLSXBackend.convert`)

The worksheet iteration of ExcelJS is the external collaborator; the
embedding takes the per-row cell values it yields (already sliced past
the 1-based padding entry) and performs the repository's own
construction: format each cell, flag row 1 as header, and build the
table item with `numRows: rows.length` and `numCols: rows[0]?.length
|| 0`. -/

/-- The `any`-typed cell values `XLSXBackend.formatCellValue` receives. -/
inductive CellVal where
  | empty
  | str (s : String)
  | num (n : Int)
  | rich (parts : List String)
  | formulaResult (r : String)
  | link (text : String)
deriving DecidableEq, Repr

/-- `XLSXBackend.formatCellValue`: empty cells render as `""`, rich
text joins its runs, formula cells render their result, hyperlinks
their text, and plain values stringify. -/
def formatCellValue : CellVal → String
  | .empty => ""
  | .str s => s
  | .num n => toString n
  | .rich parts => String.join parts
  | .formulaResult r => r
  | .link text => text

/-- The per-worksheet content of `XLSXBackend.convert` (lines 46-76): a
level-1 heading named after the sheet, then (for a non-empty sheet) one
table whose first row is flagged as header, with `numRows = rows.length`
and `numCols = rows[0]?.length || 0`. -/
def XLSXBackend.sheetContent (sheetName : String)
    (worksheetRows : List (List CellVal)) : List DocumentItem :=
  let headingItem := DocumentItem.leveled .heading sheetName 1
  let rows := worksheetRows.enum.map (fun ri =>
    ri.2.map (fun cell =>
      ({ text := formatCellValue cell, isHeader := some (ri.1 = 0) } : TableCell)))
  headingItem ::
    (if rows.length > 0 then
      [DocumentItem.tableOf rows rows.length (match rows with
        | [] => 0
        | r :: _ => r.length)]
    else [])

/-! ## ZIP backend (`class ZIPBackend`, `src/backends/pdf.ts` lines 123-299)

The `unzipper` library is the external collaborator: it is modelled as
an optional function from the archive bytes to the list of entries
(`None` models the missing optional dependency, whose `import` throws).
The parent converter the constructor injects is modelled as a function
argument; the real instance passes `MarkItDown.convert`, which is total
(its `catch` returns a failure result instead of throwing), so the
per-entry `catch` branch of the source is unreachable for it and the
per-entry processing is pure. -/

structure ZipEntry where
  entryType : String
  path : String
  buffer : List Nat

/-- The shape of `unzipper.Open.buffer` followed by per-entry
`entry.buffer()` reads. -/
abbrev UnzipFn := List Nat → Except String (List ZipEntry)

/-- The shape of the injected `parentConverter.convert`. -/
abbrev ParentConvertFn := Source → Option String → ConversionResult

/-- The text-like extensions of `ZIPBackend.addRawFileContent`. -/
def textExtensions : List String :=
  [".txt", ".md", ".json", ".xml", ".csv", ".html", ".css", ".js", ".ts"]

/-- `ZIPBackend.addRawFileContent` (lines 252-294): an inline code block
for recognized text extensions under the 10000-character threshold, a
truncated variant above it, and a byte-length placeholder paragraph
otherwise.  (`buffer.toString('utf-8')` cannot throw, so the `catch`
placeholder branch of the source is unreachable.) -/
def ZIPBackend.addRawFileContent (buffer : List Nat) (ext : String) :
    List DocumentItem :=
  if textExtensions.contains (String.mk (ext.toList.map Char.toLower)) then
    let text := decodeBytes buffer
    if text.length < 10000 then
      [DocumentItem.codeOf (String.mk text) (String.mk (ext.toList.drop 1))]
    else
      [DocumentItem.textual .paragraph
        ("File is too large to display (" ++ toString buffer.length ++
          " bytes). Showing first 1000 characters:"),
       DocumentItem.codeOf (String.mk (text.take 1000) ++ "\n\n... (truncated)")
        (String.mk (ext.toList.drop 1))]
  else
    [DocumentItem.textual .paragraph
      ("Binary file (" ++ toString buffer.length ++ " bytes)")]

/-- `ZIPBackend.isValid`: the PK signature check. -/
def ZIPBackend.isValid (source : Source) : Except String Bool :=
  .ok (pkSignature source.bytes)

/-- The per-entry body of the `for` loop of `ZIPBackend.convert` (lines
197-234): a level-2 heading naming the entry, then either the nested
conversion's content (when the parent converter reports success with a
document) or the raw-content placeholder. -/
def ZIPBackend.entryItems (parentConverter : Option ParentConvertFn)
    (e : ZipEntry) : List DocumentItem :=
  let headingItem := DocumentItem.leveled .heading ("File: " ++ e.path) 2
  let ext := String.mk (extname e.path.toList)
  let body :=
    match parentConverter with
    | some parent =>
      let result := parent (Source.buffer e.buffer) (some e.path)
      (match result.status, result.document with
       | .success, some d => d.content
       | _, _ => ZIPBackend.addRawFileContent e.buffer ext)
    | none => ZIPBackend.addRawFileContent e.buffer ext
  headingItem :: body

/-- `ZIPBackend.convert` (lines 169-250): fail when the optional
dependency is missing; otherwise a title item naming the archive,
then the concatenated per-entry items of all `File` entries, or an
error paragraph when the archive cannot be opened; the returned
document always carries `{filename, format: ZIP, title}`. -/
def ZIPBackend.convert (unzipAvailable : Option UnzipFn)
    (parentConverter : Option ParentConvertFn) (source : Source)
    (filename : Option String) : Except String Document :=
  match unzipAvailable with
  | none =>
    .error "Optional dependency \"unzipper\" is not installed. Run \"npm install unzipper\" to enable ZIP support."
  | some unzip =>
    let zipFileName := jsOrString filename "archive.zip"
    let titleItem := DocumentItem.leveled .title ("ZIP Archive: " ++ zipFileName) 1
    let body :=
      match unzip source.bytes with
      | .ok entries =>
        (entries.filter (fun e => e.entryType = "File")).flatMap
          (ZIPBackend.entryItems parentConverter)
      | .error msg =>
        [DocumentItem.textual .paragraph ("Error processing ZIP file: " ++ msg)]
    .ok { metadata := { filename := zipFileName, format := .zip, title := some zipFileName }
          content := titleItem :: body }

/-! ## Helper lemmas -/

theorem jsOrString_some_empty_default (t : String) : jsOrString (some t) "" = t := by
  by_cases h : t = "" <;> simp [jsOrString, h]

theorem jsOrNat_some_of_ne_zero (n d : Nat) (h : n ≠ 0) : jsOrNat (some n) d = n := by
  simp [jsOrNat, h]

/-- A `Math.max` fold over `k` copies of `n` is `n` (or 0 when `k = 0`). -/
theorem foldl_max_replicate_self (k a : Nat) : (List.replicate k a).foldl max a = a := by
  induction k with
  | zero => rfl
  | succ k ih => simpa [List.replicate] using ih

theorem foldl_max_replicate (k n : Nat) :
    (List.replicate k n).foldl max 0 = if k = 0 then 0 else n := by
  cases k with
  | zero => rfl
  | succ k => simpa [List.replicate, Nat.zero_max] using foldl_max_replicate_self k n

/-- The success path of the dispatcher: with a detected, allowed format
whose backend validates and converts, `convert` returns the success
result carrying the document, its content verbatim, and the
metadata-free Markdown rendering. -/
theorem MarkItDown.convert_success (m : MarkItDown) (source : Source)
    (filename : Option String) (fmt : InputFormat) (b : Backend) (doc : Document)
    (hdet : detectFormat source filename = some fmt)
    (hallow : m.allowedFormats.contains fmt = true)
    (hback : m.backendsMap fmt = some b)
    (hvalid : b.isValid source = .ok true)
    (hconv : b.convert source filename = .ok doc) :
    m.convert source filename =
      { status := .success, document := some doc, json_content := some doc.content,
        markdown_content := some (MarkdownExporter.exportStatic doc
          { includeMetadata := some false }) } := by
  have hmem : fmt ∈ m.allowedFormats := by simpa using hallow
  unfold MarkItDown.convert MarkItDown.convertCore
  rw [hdet]
  simp [hmem, hback, hvalid, hconv]

/-! ## C4: extension table and extension-over-content precedence -/

/-- C4: for every filename with a supported extension, format detection
returns the format id of the fixed extension table (`.pdf` to PDF,
`.docx` to DOCX, `.htm`/`.html` to HTML, `.srt`/`.vtt` to the subtitle
ids, the image extensions to IMAGE, `.csv`/`.json`/`.txt` to their ids,
`.xml`/`.rss`/`.atom` to their ids, `.zip` to ZIP, `.ipynb` to IPYNB),
and the extension result takes precedence over any conflicting content
signature: whenever the filename's extension maps, `detectFormat`
returns that format for every source whatsoever, so content sniffing is
never consulted. -/
theorem C4_extension_precedence :
    (extensionToFormat "pdf" = some .pdf ∧ extensionToFormat "docx" = some .docx ∧
     extensionToFormat "pptx" = some .pptx ∧ extensionToFormat "xlsx" = some .xlsx ∧
     extensionToFormat "htm" = some .html ∧ extensionToFormat "html" = some .html ∧
     extensionToFormat "srt" = some .srt ∧ extensionToFormat "vtt" = some .vtt ∧
     extensionToFormat "png" = some .image ∧ extensionToFormat "jpg" = some .image ∧
     extensionToFormat "jpeg" = some .image ∧ extensionToFormat "tif" = some .image ∧
     extensionToFormat "tiff" = some .image ∧ extensionToFormat "csv" = some .csv ∧
     extensionToFormat "json" = some .json ∧ extensionToFormat "txt" = some .text ∧
     extensionToFormat "xml" = some .xml ∧ extensionToFormat "rss" = some .rss ∧
     extensionToFormat "atom" = some .atom ∧ extensionToFormat "zip" = some .zip ∧
     extensionToFormat "ipynb" = some .ipynb) ∧
    ∀ (source : Source) (filename : String) (fmt : InputFormat),
      extensionToFormat (extKey filename) = some fmt →
      detectFormat source (some filename) = some fmt := by
  refine ⟨by decide, ?_⟩
  intro source filename fmt h
  simp only [detectFormat]
  rw [h]

/-- Witness for C4 at `feed.txt`: the `.txt` extension maps to TEXT and
wins even though the buffer's bytes carry an RSS content signature. -/
theorem C4_extension_precedence_witness :
    extensionToFormat (extKey "feed.txt") = some .text ∧
    detectFormatFromContent
      (asciiBytes "<rss version=\"2.0\"><channel></channel></rss>") = some .rss ∧
    detectFormat
      (.buffer (asciiBytes "<rss version=\"2.0\"><channel></channel></rss>"))
      (some "feed.txt") = some .text :=
  ⟨by decide, by decide,
   C4_extension_precedence.2
     (.buffer (asciiBytes "<rss version=\"2.0\"><channel></channel></rss>"))
     "feed.txt" .text (by decide)⟩

/-! ## C5: the CSV content heuristic -/

/-- The CSV heuristic exactly as the claim words it: take the first
five NON-BLANK lines (filter before truncating), and classify as CSV
exactly when the first line has at least one comma and every line's
comma count is within one of the first line's — with no minimum on the
number of lines. -/
def looksLikeCSVClaim (text : List Char) : Bool :=
  let lines := ((splitNL text).filter (fun l => ¬(trimChars l).isEmpty)).take 5
  let commaCounts := lines.map countCommas
  let firstCount := commaCounts.headD 0
  0 < firstCount ∧ commaCounts.all (fun c => absDiff c firstCount ≤ 1)

/-- C5 counterexample: the claim's reading of the heuristic differs
from the code on two points.  The single-line text `a,b` satisfies the
claim's criterion (its one line has a comma and trivially stays within
the tolerance) yet the code rejects it, because the code demands at
least two non-blank lines.  The text `a,b\n\n\n\n\nc,d` also satisfies
the claim's criterion (its first five non-blank lines are `a,b` and
`c,d`) yet the code rejects it, because the code takes the first five
raw lines before dropping blank ones and is left with only `a,b`. -/
theorem C5_looksLikeCSV_counterexample :
    (looksLikeCSVClaim "a,b".toList = true ∧ looksLikeCSV "a,b".toList = false) ∧
    (looksLikeCSVClaim "a,b\n\n\n\n\nc,d".toList = true ∧
     looksLikeCSV "a,b\n\n\n\n\nc,d".toList = false) := by decide

/-- C5 amended: the heuristic takes the first five lines, drops the
blank ones, and classifies as CSV exactly when at least two lines
remain, the first has at least one comma, and every remaining line's
comma count is within one of the first's; the claim's two concrete
vectors behave as stated (five lines of three commas each are detected
as CSV, comma counts 3,3,5,3 are rejected). -/
theorem C5_csv_heuristic_amended (text : List Char) :
    (looksLikeCSV text = true ↔
      (2 ≤ (((splitNL text).take 5).filter (fun l => ¬(trimChars l).isEmpty)).length ∧
       0 < countCommas ((((splitNL text).take 5).filter
          (fun l => ¬(trimChars l).isEmpty)).headD []) ∧
       ∀ l ∈ ((splitNL text).take 5).filter (fun l => ¬(trimChars l).isEmpty),
         absDiff (countCommas l)
           (countCommas ((((splitNL text).take 5).filter
              (fun l => ¬(trimChars l).isEmpty)).headD [])) ≤ 1)) ∧
    detectFormatFromContent
      (asciiBytes "a,b,c,d\nf,g,h,i\n1,2,3,4\n5,6,7,8\n9,10,11,12") = some .csv ∧
    detectFormatFromContent
      (asciiBytes "a,b,c,d\ne,f,g,h\n1,2,3,4,5,6\ni,j,k,l") = none := by
  refine ⟨?_, by decide, by decide⟩
  unfold looksLikeCSV
  cases hL : ((splitNL text).take 5).filter (fun l => ¬(trimChars l).isEmpty) with
  | nil => simp
  | cons l0 t =>
    cases t with
    | nil => simp
    | cons l1 rest =>
      simp [List.all_map, List.all_eq_true, Function.comp]

/-- Witness for the amended C5 at the two-line text `a,b\nc,d`. -/
theorem C5_csv_heuristic_amended_witness :
    looksLikeCSV "a,b\nc,d".toList = true ∧
    (2 ≤ ((((splitNL "a,b\nc,d".toList).take 5).filter
        (fun l => ¬(trimChars l).isEmpty)).length) ∧
     0 < countCommas ((((splitNL "a,b\nc,d".toList).take 5).filter
        (fun l => ¬(trimChars l).isEmpty)).headD []) ∧
     ∀ l ∈ ((splitNL "a,b\nc,d".toList).take 5).filter
        (fun l => ¬(trimChars l).isEmpty),
       absDiff (countCommas l)
         (countCommas ((((splitNL "a,b\nc,d".toList).take 5).filter
            (fun l => ¬(trimChars l).isEmpty)).headD [])) ≤ 1) :=
  ⟨by decide, (C5_csv_heuristic_amended "a,b\nc,d".toList).1.mp (by decide)⟩

/-! ## C6: PK-header disambiguation -/

/-- A buffer passing the PK test starts with the four magic bytes. -/
theorem pkSignature_shape (buf : List Nat) (h : pkSignature buf = true) :
    ∃ t, buf = 0x50 :: 0x4b :: 0x03 :: 0x04 :: t := by
  match buf with
  | [] => simp [pkSignature] at h
  | [b0] => simp [pkSignature] at h
  | [b0, b1] => simp [pkSignature] at h
  | [b0, b1, b2] => simp [pkSignature] at h
  | b0 :: b1 :: b2 :: b3 :: t =>
    simp [pkSignature] at h
    obtain ⟨h0, h1, h2, h3⟩ := h
    exact ⟨t, by rw [h0, h1, h2, h3]⟩

/-- C6: every buffer with the ZIP local-file-header magic `PK\x03\x04`
is classified by the decoded text's markers: `word/` means DOCX, else
`ppt/` means PPTX, else `xl/` means XLSX, else generic ZIP — in
particular a marker match beats the generic ZIP classification, and a
buffer with none of the three markers is generic ZIP. -/
theorem C6_pk_disambiguation (buffer : List Nat) (h : pkSignature buffer = true) :
    detectFormatFromContent buffer =
      (if listContainsStr (decodeBytes buffer) ("word/".toList) then some .docx
       else if listContainsStr (decodeBytes buffer) ("ppt/".toList) then some .pptx
       else if listContainsStr (decodeBytes buffer) ("xl/".toList) then some .xlsx
       else some .zip) := by
  obtain ⟨t, rfl⟩ := pkSignature_shape buffer h
  have hpdf : listStartsWith (decodeTake (0x50 :: 0x4b :: 0x03 :: 0x04 :: t) 100)
      ['%', 'P', 'D', 'F', '-'] = false := rfl
  unfold detectFormatFromContent
  simp [hpdf, h]

/-- Witness for C6: a PK buffer containing `word/` is DOCX (despite
also matching the generic ZIP signature), and one with no marker is
generic ZIP. -/
theorem C6_pk_disambiguation_witness :
    pkSignature ([0x50, 0x4b, 0x03, 0x04] ++ asciiBytes " word/document.xml") = true ∧
    detectFormatFromContent ([0x50, 0x4b, 0x03, 0x04] ++ asciiBytes " word/document.xml") =
      some .docx ∧
    detectFormatFromContent ([0x50, 0x4b, 0x03, 0x04] ++ asciiBytes " plain") = some .zip :=
  ⟨by decide,
   by
    rw [C6_pk_disambiguation ([0x50, 0x4b, 0x03, 0x04] ++ asciiBytes " word/document.xml")
      (by decide)]
    decide,
   by
    rw [C6_pk_disambiguation ([0x50, 0x4b, 0x03, 0x04] ++ asciiBytes " plain") (by decide)]
    decide⟩

/-! ## C8: heading serialization -/

/-- C8: a heading of level `l ≥ 1` renders under atx style as `#`
repeated `l` times, a space, then the text; under setext style as the
text underlined with `=` (level 1) or `-` (level 2), the underline as
long as the text, with atx fallback for level 3 and above. -/
theorem C8_heading_serialization (o : ResolvedMarkdownOptions) (text : String) (l : Nat)
    (hl : 1 ≤ l) :
    (o.headingStyle = .atx →
      exportHeading o (DocumentItem.leveled .heading text l) =
        strRepeat "#" l ++ " " ++ text) ∧
    (o.headingStyle = .setext →
      (l = 1 → exportHeading o (DocumentItem.leveled .heading text l) =
        text ++ "\n" ++ strRepeat "=" text.length) ∧
      (l = 2 → exportHeading o (DocumentItem.leveled .heading text l) =
        text ++ "\n" ++ strRepeat "-" text.length) ∧
      (3 ≤ l → exportHeading o (DocumentItem.leveled .heading text l) =
        strRepeat "#" l ++ " " ++ text)) := by
  have hlevel : jsOrNat (some l) 1 = l := jsOrNat_some_of_ne_zero l 1 (by omega)
  have htext : jsOrString (some text) "" = text := jsOrString_some_empty_default text
  constructor
  · intro hsty
    simp [exportHeading, DocumentItem.leveled, DocumentItem.level, DocumentItem.text,
      hsty, hlevel, htext]
  · intro hsty
    refine ⟨?_, ?_, ?_⟩
    · intro h1
      subst h1
      simp [exportHeading, DocumentItem.leveled, DocumentItem.level, DocumentItem.text,
        hsty, hlevel, htext]
    · intro h2
      subst h2
      simp [exportHeading, DocumentItem.leveled, DocumentItem.level, DocumentItem.text,
        hsty, hlevel, htext]
    · intro h3
      have h1 : l ≠ 1 := by omega
      have h2 : l ≠ 2 := by omega
      simp [exportHeading, DocumentItem.leveled, DocumentItem.level, DocumentItem.text,
        hsty, hlevel, htext, h1, h2]

/-- Witness for C8 at the claim's example: the level-1 heading `Title`
renders `# Title` under atx and `Title` over five `=` under setext. -/
theorem C8_heading_serialization_witness :
    exportHeading (resolveOptions {}) (DocumentItem.leveled .heading "Title" 1) =
      strRepeat "#" 1 ++ " " ++ "Title" ∧
    strRepeat "#" 1 ++ " " ++ "Title" = "# Title" ∧
    exportHeading (resolveOptions { headingStyle := some .setext })
        (DocumentItem.leveled .heading "Title" 1) =
      "Title" ++ "\n" ++ strRepeat "=" "Title".length ∧
    "Title" ++ "\n" ++ strRepeat "=" "Title".length = "Title\n=====" :=
  ⟨(C8_heading_serialization (resolveOptions {}) "Title" 1 (by decide)).1 rfl,
   by decide,
   ((C8_heading_serialization (resolveOptions { headingStyle := some .setext })
      "Title" 1 (by decide)).2 rfl).1 rfl,
   by decide⟩

/-! ## C9: tables render the first row as header by position -/

/-- The Markdown table rendering as a function of the cell texts alone. -/
def exportTableOnTexts (texts : List (List String)) : String :=
  match texts with
  | [] => ""
  | t0 :: rest =>
    joinSep "\n"
      (("| " ++ joinSep " | " t0 ++ " |") ::
       ("| " ++ joinSep " | " (t0.map (fun _ => "---")) ++ " |") ::
       rest.map (fun row => "| " ++ joinSep " | " row ++ " |"))

/-- `exportTable` depends only on the texts of the cells. -/
theorem exportTable_eq_onTexts (rows : List (List TableCell)) (nR nC : Nat) :
    exportTable (DocumentItem.tableOf rows nR nC) =
      exportTableOnTexts (rows.map (fun r => r.map TableCell.text)) := by
  cases rows with
  | nil => rfl
  | cons r0 rest =>
    simp only [exportTable, exportTableOnTexts, DocumentItem.tableOf, DocumentItem.rows,
      Option.getD, List.map_cons, List.map_map]
    rfl

/-- C9: for a table with at least one row, the serializer renders the
first row as the header row, then a separator row with one `---` cell
per first-row column, then the remaining rows as data — and the output
is a function of the cell texts alone, so the per-cell `isHeader` flags
never influence which row becomes the header. -/
theorem C9_table_header_by_position (r0 : List TableCell)
    (rest : List (List TableCell)) (nR nC : Nat) :
    exportTable (DocumentItem.tableOf (r0 :: rest) nR nC) =
      joinSep "\n"
        (("| " ++ joinSep " | " (r0.map TableCell.text) ++ " |") ::
         ("| " ++ joinSep " | " (r0.map (fun _ => "---")) ++ " |") ::
         rest.map (fun row => "| " ++ joinSep " | " (row.map TableCell.text) ++ " |")) ∧
    ∀ (rows2 : List (List TableCell)) (nR2 nC2 : Nat),
      (r0 :: rest).map (fun r => r.map TableCell.text) =
        rows2.map (fun r => r.map TableCell.text) →
      exportTable (DocumentItem.tableOf (r0 :: rest) nR nC) =
        exportTable (DocumentItem.tableOf rows2 nR2 nC2) := by
  constructor
  · rw [exportTable_eq_onTexts]
    simp only [exportTableOnTexts, List.map_cons, List.map_map]
    rfl
  · intro rows2 nR2 nC2 htexts
    rw [exportTable_eq_onTexts, exportTable_eq_onTexts, htexts]

/-- The rows of the C9 witness table: only the SECOND row carries
`isHeader` flags. -/
def c9RowA : List TableCell :=
  [{ text := "a", isHeader := some false }, { text := "b", isHeader := some false }]

def c9RowB : List TableCell :=
  [{ text := "1", isHeader := some true }, { text := "2", isHeader := some true }]

/-- The same texts under the opposite `isHeader` flags. -/
def c9RowA2 : List TableCell :=
  [{ text := "a", isHeader := some true }, { text := "b", isHeader := some true }]

def c9RowB2 : List TableCell :=
  [{ text := "1", isHeader := some false }, { text := "2", isHeader := some false }]

/-- Witness for C9: a table whose second row is the one flagged
`isHeader` still renders its first row as the Markdown header, with
output identical to the same texts under the opposite flags. -/
theorem C9_table_header_by_position_witness :
    exportTable (DocumentItem.tableOf [c9RowA, c9RowB] 2 2) =
      joinSep "\n"
        (("| " ++ joinSep " | " (c9RowA.map TableCell.text) ++ " |") ::
         ("| " ++ joinSep " | " (c9RowA.map (fun _ => "---")) ++ " |") ::
         [c9RowB].map (fun row => "| " ++ joinSep " | " (row.map TableCell.text) ++ " |")) ∧
    exportTable (DocumentItem.tableOf [c9RowA, c9RowB] 2 2) =
      exportTable (DocumentItem.tableOf [c9RowA2, c9RowB2] 2 2) ∧
    exportTable (DocumentItem.tableOf [c9RowA, c9RowB] 2 2) =
      "| a | b |\n| --- | --- |\n| 1 | 2 |" :=
  ⟨(C9_table_header_by_position c9RowA [c9RowB] 2 2).1,
   (C9_table_header_by_position c9RowA [c9RowB] 2 2).2 [c9RowA2, c9RowB2] 2 2 (by decide),
   by decide⟩

/-! ## C10: Markdown serialization is deterministic -/

/-- C10: serializing the same Document twice with identical options
yields byte-identical output.  The serializer is a pure function of the
document and the options — the embedding exposes no other state, and
the static `export` constructs a fresh exporter from the options on
every call — so two runs with equal inputs are equal outputs. -/
theorem C10_markdown_deterministic (d1 d2 : Document)
    (o1 o2 : MarkdownExportOptions) (hd : d1 = d2) (ho : o1 = o2) :
    MarkdownExporter.exportStatic d1 o1 = MarkdownExporter.exportStatic d2 o2 := by
  rw [hd, ho]

/-- The document of the C10 witness: a paragraph and a level-2 heading
over TEXT metadata. -/
def c10Doc : Document :=
  ⟨{ filename := "t.txt", format := .text },
   [DocumentItem.textual .paragraph "hello", DocumentItem.leveled .heading "H" 2]⟩

/-- Witness for C10: two serializations of the same document with the
same options coincide, and both equal the concrete rendering. -/
theorem C10_markdown_deterministic_witness :
    MarkdownExporter.exportStatic c10Doc { includeMetadata := some false } =
      MarkdownExporter.exportStatic c10Doc { includeMetadata := some false } ∧
    MarkdownExporter.exportStatic c10Doc { includeMetadata := some false } =
      "hello\n\n## H" :=
  ⟨C10_markdown_deterministic c10Doc c10Doc
     { includeMetadata := some false } { includeMetadata := some false } rfl rfl,
   by
    simp [MarkdownExporter.exportStatic, exportDocument, exportContent, exportSeq,
      exportItem, exportText, exportHeading, resolveOptions, jsOrString, strRepeat,
      joinSep, DocumentItem.textual, DocumentItem.leveled, jsOrNat, fmtFlag, c10Doc,
      DocumentItem.text, DocumentItem.level, DocumentItem.formatting,
      DocumentItem.metadata, DocumentItem.children, DocumentItem.rows,
      DocumentItem.type]⟩

/-! ## C1: the dispatcher never lets an exception escape and maps every
failure mode to the documented message -/

/-- C1: `MarkItDown.convert` always returns a `ConversionResult` (its
total return type embeds the surrounding `catch`, so no exception
escapes), and each failure mode surfaces as the documented message: an
undetectable format, a format outside the allow-list, a format without
a registered backend, a backend whose `isValid` answers false, and an
exception thrown by `isValid` or `convert` (whose message becomes the
errors list). -/
theorem C1_dispatcher_error_handling (m : MarkItDown) (source : Source)
    (filename : Option String) :
    (detectFormat source filename = none →
      m.convert source filename = failureResult ["Unable to detect document format"]) ∧
    (∀ fmt, detectFormat source filename = some fmt →
      m.allowedFormats.contains fmt = false →
      m.convert source filename =
        failureResult ["Format " ++ formatToString fmt ++ " is not allowed"]) ∧
    (∀ fmt, detectFormat source filename = some fmt →
      m.allowedFormats.contains fmt = true →
      m.backendsMap fmt = none →
      m.convert source filename =
        failureResult ["No backend available for format " ++ formatToString fmt]) ∧
    (∀ fmt b, detectFormat source filename = some fmt →
      m.allowedFormats.contains fmt = true →
      m.backendsMap fmt = some b →
      b.isValid source = .ok false →
      m.convert source filename =
        failureResult ["Invalid " ++ formatToString fmt ++ " document"]) ∧
    (∀ fmt b msg, detectFormat source filename = some fmt →
      m.allowedFormats.contains fmt = true →
      m.backendsMap fmt = some b →
      b.isValid source = .ok true →
      b.convert source filename = .error msg →
      m.convert source filename = failureResult [msg]) ∧
    (∀ fmt b msg, detectFormat source filename = some fmt →
      m.allowedFormats.contains fmt = true →
      m.backendsMap fmt = some b →
      b.isValid source = .error msg →
      m.convert source filename = failureResult [msg]) := by
  refine ⟨?_, ?_, ?_, ?_, ?_, ?_⟩
  · intro hdet
    unfold MarkItDown.convert MarkItDown.convertCore
    rw [hdet]
  · intro fmt hdet hallow
    have hmem : fmt ∉ m.allowedFormats := by simpa using hallow
    unfold MarkItDown.convert MarkItDown.convertCore
    rw [hdet]
    simp [hmem]
  · intro fmt hdet hallow hback
    have hmem : fmt ∈ m.allowedFormats := by simpa using hallow
    unfold MarkItDown.convert MarkItDown.convertCore
    rw [hdet]
    simp [hmem, hback]
  · intro fmt b hdet hallow hback hvalid
    have hmem : fmt ∈ m.allowedFormats := by simpa using hallow
    unfold MarkItDown.convert MarkItDown.convertCore
    rw [hdet]
    simp [hmem, hback, hvalid]
  · intro fmt b msg hdet hallow hback hvalid hconv
    have hmem : fmt ∈ m.allowedFormats := by simpa using hallow
    unfold MarkItDown.convert MarkItDown.convertCore
    rw [hdet]
    simp [hmem, hback, hvalid, hconv]
  · intro fmt b msg hdet hallow hback hvalid
    have hmem : fmt ∈ m.allowedFormats := by simpa using hallow
    unfold MarkItDown.convert MarkItDown.convertCore
    rw [hdet]
    simp [hmem, hback, hvalid]

/-- A backend whose validation accepts and whose conversion throws. -/
def throwingBackend : Backend :=
  { isValid := fun _ => .ok true, convert := fun _ _ => .error "boom" }

/-- A backend whose validation rejects. -/
def rejectingBackend : Backend :=
  { isValid := fun _ => .ok false, convert := fun _ _ => .error "unreachable" }

/-- The C1 witness dispatcher: TEXT is served by the throwing backend,
JSON by the rejecting one, CSV is allowed but unregistered, and PDF is
outside the allow-list. -/
def c1MarkItDown : MarkItDown :=
  { backendsMap := fun f =>
      if f = .text then some throwingBackend
      else if f = .json then some rejectingBackend
      else none
    allowedFormats := [.text, .json, .csv] }

/-- Witness for C1: each failure mode of the dispatcher observed at a
concrete input — undetectable bytes, a disallowed format, a format
without a backend, a failing validation, and a throwing backend whose
message is returned. -/
theorem C1_dispatcher_error_handling_witness :
    c1MarkItDown.convert (.buffer [0, 1, 2]) none =
      failureResult ["Unable to detect document format"] ∧
    c1MarkItDown.convert (.buffer [0, 1, 2]) (some "a.pdf") =
      failureResult ["Format " ++ formatToString .pdf ++ " is not allowed"] ∧
    c1MarkItDown.convert (.buffer [0, 1, 2]) (some "a.csv") =
      failureResult ["No backend available for format " ++ formatToString .csv] ∧
    c1MarkItDown.convert (.buffer [0, 1, 2]) (some "a.json") =
      failureResult ["Invalid " ++ formatToString .json ++ " document"] ∧
    c1MarkItDown.convert (.buffer [0, 1, 2]) (some "a.txt") =
      failureResult ["boom"] :=
  ⟨(C1_dispatcher_error_handling c1MarkItDown (.buffer [0, 1, 2]) none).1 (by decide),
   (C1_dispatcher_error_handling c1MarkItDown (.buffer [0, 1, 2]) (some "a.pdf")).2.1
     .pdf (by decide) (by decide),
   (C1_dispatcher_error_handling c1MarkItDown (.buffer [0, 1, 2]) (some "a.csv")).2.2.1
     .csv (by decide) (by decide) rfl,
   (C1_dispatcher_error_handling c1MarkItDown (.buffer [0, 1, 2]) (some "a.json")).2.2.2.1
     .json rejectingBackend (by decide) (by decide) rfl rfl,
   (C1_dispatcher_error_handling c1MarkItDown (.buffer [0, 1, 2]) (some "a.txt")).2.2.2.2.1
     .text throwingBackend "boom" (by decide) (by decide) rfl rfl rfl⟩

/-! ## C2: the success result carries the document, its content
verbatim, and the metadata-free Markdown -/

/-- C2: whenever the selected backend's conversion succeeds with a
document, `convert` returns `{status: SUCCESS}` carrying that document,
a `json_content` that is exactly the document's content sequence, and a
`markdown_content` equal to the Markdown serializer's output for the
document with metadata rendering disabled. -/
theorem C2_success_outputs (m : MarkItDown) (source : Source)
    (filename : Option String) (fmt : InputFormat) (b : Backend) (doc : Document)
    (hdet : detectFormat source filename = some fmt)
    (hallow : m.allowedFormats.contains fmt = true)
    (hback : m.backendsMap fmt = some b)
    (hvalid : b.isValid source = .ok true)
    (hconv : b.convert source filename = .ok doc) :
    m.convert source filename =
      { status := .success, document := some doc, json_content := some doc.content,
        markdown_content := some (MarkdownExporter.exportStatic doc
          { includeMetadata := some false }) } :=
  MarkItDown.convert_success m source filename fmt b doc hdet hallow hback hvalid hconv

/-- The document of the C2 witness. -/
def c2Doc : Document :=
  ⟨{ filename := "a.txt", format := .text },
   [DocumentItem.textual .paragraph "hello"]⟩

/-- A backend that accepts and converts to `c2Doc`. -/
def c2Backend : Backend :=
  { isValid := fun _ => .ok true, convert := fun _ _ => .ok c2Doc }

def c2MarkItDown : MarkItDown :=
  { backendsMap := fun f => if f = .text then some c2Backend else none
    allowedFormats := [.text] }

/-- Witness for C2: a successful conversion observed concretely — the
result is the success record, its `json_content` is the document's
content verbatim, and its `markdown_content` renders the paragraph. -/
theorem C2_success_outputs_witness :
    c2MarkItDown.convert (.buffer (asciiBytes "hello")) (some "a.txt") =
      { status := .success, document := some c2Doc, json_content := some c2Doc.content,
        markdown_content := some (MarkdownExporter.exportStatic c2Doc
          { includeMetadata := some false }) } ∧
    c2Doc.content = [DocumentItem.textual .paragraph "hello"] ∧
    MarkdownExporter.exportStatic c2Doc { includeMetadata := some false } = "hello" :=
  ⟨C2_success_outputs c2MarkItDown (.buffer (asciiBytes "hello")) (some "a.txt")
     .text c2Backend c2Doc (by decide) (by decide) rfl rfl rfl,
   rfl,
   by
    simp [MarkdownExporter.exportStatic, exportDocument, exportContent, exportSeq,
      exportItem, exportText, resolveOptions, jsOrString, joinSep,
      DocumentItem.textual, fmtFlag, c2Doc, DocumentItem.text, DocumentItem.level,
      DocumentItem.formatting, DocumentItem.metadata, DocumentItem.children,
      DocumentItem.rows, DocumentItem.type]⟩

/-! ## C3: table dimension fields `numRows`/`numCols` -/

/-- `max(row.length for row in rows)` of the claim (0 for an empty
table). -/
def maxRowLen (rows : List (List TableCell)) : Nat :=
  (rows.map List.length).foldl max 0

/-- The table-dimension invariant exactly as the claim states it:
`numRows` is the number of rows and `numCols` the maximum row length. -/
def tableDimsInvariant (item : DocumentItem) : Prop :=
  item.numRows = some (item.rows.getD []).length ∧
  item.numCols = some (maxRowLen (item.rows.getD []))

/-- The padded table the plain-text CSV parser builds satisfies the
dimension invariant: every row is constructed with exactly `nC` cells,
so the maximum row length is `nC`. -/
theorem tableDims_padded_invariant (rows : List (List String)) (nC : Nat)
    (h : rows ≠ []) :
    tableDimsInvariant (DocumentItem.tableOf
      (rows.enum.map (fun ri => (List.range nC).map (fun j =>
        ({ text := ri.2.getD j "", isHeader := some (ri.1 = 0) } : TableCell))))
      (rows.enum.map (fun ri => (List.range nC).map (fun j =>
        ({ text := ri.2.getD j "", isHeader := some (ri.1 = 0) } : TableCell)))).length
      nC) := by
  constructor
  · rfl
  · show some nC = some (maxRowLen _)
    congr 1
    simp only [DocumentItem.tableOf, DocumentItem.rows, Option.getD]
    unfold maxRowLen
    rw [show ((rows.enum.map (fun ri => (List.range nC).map (fun j =>
        ({ text := ri.2.getD j "", isHeader := some (ri.1 = 0) } : TableCell)))).map
          List.length) =
        List.replicate rows.enum.length nC from by
      simp [List.map_map, Function.comp_def]]
    rw [foldl_max_replicate]
    simp [h, List.enum_length]

/-- The XLSX table's `numCols` (`rows[0]?.length || 0`) is the first
row's length. -/
theorem xlsx_table_numCols (R : List (List TableCell)) (n : Nat) :
    (DocumentItem.tableOf R n
        (match R with | [] => 0 | r :: _ => r.length)).numCols =
      some (R.headD []).length := by
  cases R <;> rfl

/-- C3 counterexample: the XLSX backend computes `numCols` as
`rows[0]?.length || 0` — the FIRST row's length — so a worksheet whose
second row is longer than its first (here rows of 1 and 2 cells)
produces a table item with `numCols = 1` while the maximum row length
is 2, violating the claimed invariant. -/
theorem C3_table_dims_counterexample :
    XLSXBackend.sheetContent "Sheet1" [[.str "a"], [.str "b", .str "c"]] =
      [DocumentItem.leveled .heading "Sheet1" 1,
       DocumentItem.tableOf
         [[{ text := "a", isHeader := some true }],
          [{ text := "b", isHeader := some false },
           { text := "c", isHeader := some false }]] 2 1] ∧
    maxRowLen
      [[{ text := "a", isHeader := some true }],
       [{ text := "b", isHeader := some false },
        { text := "c", isHeader := some false }]] = 2 ∧
    ¬ tableDimsInvariant (DocumentItem.tableOf
        [[{ text := "a", isHeader := some true }],
         [{ text := "b", isHeader := some false },
          { text := "c", isHeader := some false }]] 2 1) := by
  refine ⟨rfl, rfl, ?_⟩
  intro h
  have h2 := h.2
  simp [tableDimsInvariant, DocumentItem.tableOf, DocumentItem.numCols,
    DocumentItem.rows, maxRowLen] at h2

/-- C3 amended: `numRows` always equals the number of rows.  The CSV
table of the plain-text backend pads every row to
`Math.max(...row lengths)` cells, so its `numCols` does equal the
maximum row length; the XLSX backend instead sets `numCols` to the
FIRST row's length (0 for an empty table), which equals the maximum
only when no later row is longer. -/
theorem C3_table_dims_amended :
    (∀ (text : List Char) (item : DocumentItem),
        item ∈ PlainTextBackend.parseCSV text → tableDimsInvariant item) ∧
    (∀ (sheetName : String) (wsRows : List (List CellVal)) (item : DocumentItem),
        item ∈ XLSXBackend.sheetContent sheetName wsRows →
        item.type = .table →
        item.numRows = some (item.rows.getD []).length ∧
        item.numCols = some ((item.rows.getD []).headD []).length) := by
  constructor
  · intro text item hmem
    simp only [PlainTextBackend.parseCSV] at hmem
    split at hmem
    · exact absurd hmem (List.not_mem_nil item)
    · split at hmem
      · exact absurd hmem (List.not_mem_nil item)
      · rename_i h1 h2
        rw [List.mem_singleton] at hmem
        subst hmem
        apply tableDims_padded_invariant
        intro hnil
        rw [hnil] at h2
        exact h2 rfl
  · intro sheetName wsRows item hmem htype
    simp only [XLSXBackend.sheetContent, List.mem_cons] at hmem
    rcases hmem with hitem | hmem
    · subst hitem
      simp [DocumentItem.leveled, DocumentItem.type] at htype
    · split at hmem
      · rw [List.mem_singleton] at hmem
        subst hmem
        exact ⟨rfl, xlsx_table_numCols _ _⟩
      · exact absurd hmem (List.not_mem_nil item)

/-- Witness for the amended C3: the CSV text `a,b\nc,d,e` yields a
table with `numRows = 2` and `numCols = 3` (the maximum row length,
with the short row padded), and a rectangular two-row worksheet yields
`numCols` equal to its first row's length. -/
theorem C3_table_dims_amended_witness :
    PlainTextBackend.parseCSV "a,b\nc,d,e".toList =
      [DocumentItem.tableOf
        [[{ text := "a", isHeader := some true }, { text := "b", isHeader := some true },
          { text := "", isHeader := some true }],
         [{ text := "c", isHeader := some false }, { text := "d", isHeader := some false },
          { text := "e", isHeader := some false }]] 2 3] ∧
    tableDimsInvariant (DocumentItem.tableOf
        [[{ text := "a", isHeader := some true }, { text := "b", isHeader := some true },
          { text := "", isHeader := some true }],
         [{ text := "c", isHeader := some false }, { text := "d", isHeader := some false },
          { text := "e", isHeader := some false }]] 2 3) ∧
    XLSXBackend.sheetContent "S" [[.str "a"], [.str "b"]] =
      [DocumentItem.leveled .heading "S" 1,
       DocumentItem.tableOf
         [[{ text := "a", isHeader := some true }],
          [{ text := "b", isHeader := some false }]] 2 1] ∧
    (DocumentItem.tableOf
        [[{ text := "a", isHeader := some true }],
         [{ text := "b", isHeader := some false }]] 2 1).numRows = some 2 ∧
    (DocumentItem.tableOf
        [[{ text := "a", isHeader := some true }],
         [{ text := "b", isHeader := some false }]] 2 1).numCols = some 1 :=
  ⟨rfl,
   C3_table_dims_amended.1 "a,b\nc,d,e".toList
     (DocumentItem.tableOf
       [[{ text := "a", isHeader := some true }, { text := "b", isHeader := some true },
         { text := "", isHeader := some true }],
        [{ text := "c", isHeader := some false }, { text := "d", isHeader := some false },
         { text := "e", isHeader := some false }]] 2 3)
     (by
      rw [show PlainTextBackend.parseCSV "a,b\nc,d,e".toList =
        [DocumentItem.tableOf
          [[{ text := "a", isHeader := some true }, { text := "b", isHeader := some true },
            { text := "", isHeader := some true }],
           [{ text := "c", isHeader := some false }, { text := "d", isHeader := some false },
            { text := "e", isHeader := some false }]] 2 3] from rfl]
      exact List.mem_singleton_self _),
   rfl, rfl, rfl⟩

/-! ## C7: a failing archive entry degrades to a placeholder -/

/-- C7: for a two-entry archive whose first entry converts successfully
and whose second entry's nested conversion reports failure, the ZIP
backend still returns a document (no exception): its content is the
archive title, entry A's heading followed by A's full converted
content spliced in, then entry B's heading followed by the raw-content
placeholder (`addRawFileContent`: an inline code block for small
text-like extensions, a byte-length paragraph otherwise) — and through
a dispatcher that serves ZIP with this backend, the overall conversion
status is `success`. -/
theorem C7_archive_entry_failure_tolerated
    (unzip : UnzipFn) (parent : ParentConvertFn) (src : Source) (zname : String)
    (eA eB : ZipEntry) (docA : Document)
    (hzname : zname ≠ "")
    (hA : eA.entryType = "File") (hB : eB.entryType = "File")
    (hunzip : unzip src.bytes = .ok [eA, eB])
    (hstA : (parent (Source.buffer eA.buffer) (some eA.path)).status = .success)
    (hdocA : (parent (Source.buffer eA.buffer) (some eA.path)).document = some docA)
    (hstB : (parent (Source.buffer eB.buffer) (some eB.path)).status = .failure) :
    ZIPBackend.convert (some unzip) (some parent) src (some zname) =
      .ok { metadata := { filename := zname, format := .zip, title := some zname },
            content :=
              DocumentItem.leveled .title ("ZIP Archive: " ++ zname) 1 ::
              ((DocumentItem.leveled .heading ("File: " ++ eA.path) 2 :: docA.content) ++
               (DocumentItem.leveled .heading ("File: " ++ eB.path) 2 ::
                ZIPBackend.addRawFileContent eB.buffer
                  (String.mk (extname eB.path.toList)))) } ∧
    ∀ (m : MarkItDown) (zb : Backend),
      detectFormat src (some zname) = some .zip →
      m.allowedFormats.contains .zip = true →
      m.backendsMap .zip = some zb →
      zb.isValid src = .ok true →
      zb.convert src (some zname) =
        ZIPBackend.convert (some unzip) (some parent) src (some zname) →
      (m.convert src (some zname)).status = .success := by
  have hmain : ZIPBackend.convert (some unzip) (some parent) src (some zname) =
      .ok { metadata := { filename := zname, format := .zip, title := some zname },
            content :=
              DocumentItem.leveled .title ("ZIP Archive: " ++ zname) 1 ::
              ((DocumentItem.leveled .heading ("File: " ++ eA.path) 2 :: docA.content) ++
               (DocumentItem.leveled .heading ("File: " ++ eB.path) 2 ::
                ZIPBackend.addRawFileContent eB.buffer
                  (String.mk (extname eB.path.toList)))) } := by
    simp only [ZIPBackend.convert, hunzip]
    simp [jsOrString, hzname, hA, hB, ZIPBackend.entryItems, hstA, hdocA, hstB]
  refine ⟨hmain, fun m zb hdet hallow hback hvalid hconv => ?_⟩
  have hok := hconv.trans hmain
  rw [MarkItDown.convert_success m src (some zname) .zip zb _ hdet hallow hback hvalid hok]

/-- The successfully converting entry of the C7 witness archive. -/
def c7EntryA : ZipEntry := ⟨"File", "a.txt", asciiBytes "hello"⟩

/-- The failing entry of the C7 witness archive: an extension no
backend recognizes and bytes with no content signature. -/
def c7EntryB : ZipEntry := ⟨"File", "b.xyz", [1, 2, 3]⟩

def c7DocA : Document :=
  ⟨{ filename := "a.txt", format := .text }, [DocumentItem.textual .paragraph "hello"]⟩

def c7Unzip : UnzipFn := fun _ => .ok [c7EntryA, c7EntryB]

/-- The injected parent converter of the C7 witness: succeeds with
`c7DocA` on entry A's bytes, fails on everything else. -/
def c7Parent : ParentConvertFn := fun s _ =>
  match s with
  | .buffer bytes =>
    if bytes = asciiBytes "hello" then { status := .success, document := some c7DocA }
    else failureResult ["Unable to detect document format"]
  | .path _ _ => failureResult ["Unable to detect document format"]

def c7ZipBackend : Backend :=
  ⟨ZIPBackend.isValid, ZIPBackend.convert (some c7Unzip) (some c7Parent)⟩

def c7MarkItDown : MarkItDown :=
  { backendsMap := fun f => if f = .zip then some c7ZipBackend else none
    allowedFormats := [.zip] }

def c7Src : Source := .buffer [0x50, 0x4b, 0x03, 0x04]

/-- Witness for C7: the concrete two-entry archive converts to a
document holding A's content and B's binary placeholder, and the
dispatcher reports overall success. -/
theorem C7_archive_entry_failure_tolerated_witness :
    ZIPBackend.convert (some c7Unzip) (some c7Parent) c7Src (some "test.zip") =
      .ok { metadata := { filename := "test.zip", format := .zip, title := some "test.zip" },
            content :=
              DocumentItem.leveled .title ("ZIP Archive: " ++ "test.zip") 1 ::
              ((DocumentItem.leveled .heading ("File: " ++ c7EntryA.path) 2 :: c7DocA.content) ++
               (DocumentItem.leveled .heading ("File: " ++ c7EntryB.path) 2 ::
                ZIPBackend.addRawFileContent c7EntryB.buffer
                  (String.mk (extname c7EntryB.path.toList)))) } ∧
    ZIPBackend.addRawFileContent c7EntryB.buffer
      (String.mk (extname c7EntryB.path.toList)) =
      [DocumentItem.textual .paragraph "Binary file (3 bytes)"] ∧
    (c7MarkItDown.convert c7Src (some "test.zip")).status = .success :=
  ⟨(C7_archive_entry_failure_tolerated c7Unzip c7Parent c7Src "test.zip"
      c7EntryA c7EntryB c7DocA (by decide) rfl rfl rfl rfl rfl rfl).1,
   rfl,
   (C7_archive_entry_failure_tolerated c7Unzip c7Parent c7Src "test.zip"
      c7EntryA c7EntryB c7DocA (by decide) rfl rfl rfl rfl rfl rfl).2
     c7MarkItDown c7ZipBackend (by decide) (by decide) rfl rfl rfl⟩
